import Mathlib

/-!
# Verification of the quotes-scraping pipeline and helper scripts

Shallow embedding of `src/lib/practical_example.py`, `src/lib/scraper.py`
and the error-handling demo of `src/lib/advanced_examples.py`.

External collaborators (`requests`, `BeautifulSoup`, `urllib.parse`,
`csv`, `json`) are modelled at their interface: a fetched page is given
directly as the selector matches it would produce (each element is
represented by the data the scripts read from it: its trimmed text, or
its `href` attribute), and a fetch outcome is either such a page or one
of the `requests` exception categories the scripts catch.
-/

set_option autoImplicit false

namespace Scraping

/-- The categories of `requests` exceptions distinguished by the scripts:
`requests.exceptions.Timeout`, `requests.exceptions.ConnectionError`,
`requests.exceptions.HTTPError` (raised by `raise_for_status` on a bad
status code, carrying that code), and any other `RequestException`.
All four are subclasses of `requests.RequestException`, hence all are
caught by the pipeline's `except requests.RequestException` clause. -/
inductive FetchError where
  | timeout : FetchError
  | connectionError : FetchError
  | httpStatusError : Nat → FetchError
  | other : FetchError
  deriving DecidableEq, Repr

/-- One match of the item selector `.quote` on a page, represented by the
data the extraction loop reads from it: the trimmed texts of its `.text`
matches, of its `.author` matches, and of its `.tag` matches
(`get_text(strip=True)` of each element). -/
structure Quote where
  textMatches : List String
  authorMatches : List String
  tagMatches : List String
  deriving DecidableEq, Repr

/-- The element matched by `select_one('.next')`, represented by its
`href` attribute (which the pipeline never reads). -/
structure NextElem where
  href : Option String
  deriving DecidableEq, Repr

/-- A successfully fetched and parsed page, as the pipeline queries it:
the ordered matches of `doc.select('.quote')` and the result of
`doc.select_one('.next')`. -/
structure QuotesPage where
  quotes : List Quote
  nextBtn : Option NextElem
  deriving DecidableEq, Repr

/-- A site: what `requests.get` returns for each URL, already parsed.
`Except.error e` models the request raising exception category `e`. -/
def Site : Type := String → Except FetchError QuotesPage

/-- One extracted record: the dict literal built at lines 56–61 of
`practical_example.py`, which always contains all four keys. -/
structure Record where
  text : String
  author : String
  tags : List String
  page : Nat
  deriving DecidableEq, Repr

/-- Why the `while True:` loop of `scrape_quotes_to_scrape` stopped,
reifying which `break` fired: `if not quotes: break` (no items on the
page), `if not next_btn: break` (no next-page control), or the
`except requests.RequestException` clause (fetch failure, carrying the
exception's category). -/
inductive TerminalReason where
  | noItemsOnPage : TerminalReason
  | noNextPage : TerminalReason
  | fetchFailure : FetchError → TerminalReason
  deriving DecidableEq, Repr

/-- The observable outcome of a run: the returned `all_quotes` list, the
sequence of URLs passed to `requests.get`, and the reason the loop
stopped (`none` only when the step budget `fuel` ran out, which has no
Python counterpart: the source loop is unbounded). -/
structure RunResult where
  records : List Record
  fetchedUrls : List String
  terminal : Option TerminalReason
  deriving DecidableEq, Repr

/-- `base_url = "http://quotes.toscrape.com"` (line 20). -/
def baseUrl : String := "http://quotes.toscrape.com"

/-- `url = f"{base_url}/page/{page}/"` (line 27). -/
def pageUrl (base : String) (page : Nat) : String :=
  base ++ "/page/" ++ toString page ++ "/"

/-- The per-quote extraction (lines 43–61):
`text` is the first `.text` match's trimmed text or `"No text"`,
`author` is the first `.author` match's trimmed text or `"Unknown"`,
`tags` is the list of trimmed texts of all `.tag` matches, and
`page` is the current page counter. -/
def extractQuote (page : Nat) (q : Quote) : Record :=
  { text := q.textMatches.head?.getD "No text"
    author := q.authorMatches.head?.getD "Unknown"
    tags := q.tagMatches
    page := page }

/-- All records extracted from one page's item matches, in order. -/
def extractPage (page : Nat) (doc : QuotesPage) : List Record :=
  doc.quotes.map (extractQuote page)

/-- The `while True:` loop of `scrape_quotes_to_scrape` (lines 26–80),
with explicit accumulators for `all_quotes` and the fetched URLs and a
fuel parameter bounding the number of iterations (the Python loop is
syntactically unbounded). Each iteration: build the URL from the page
counter, fetch; on a `RequestException`, `break` (fetch failure);
otherwise, if `doc.select('.quote')` is empty, `break` (no items);
otherwise extract every quote, then `break` if `doc.select_one('.next')`
found nothing, else increment `page` and continue. The courtesy
`time.sleep(0.5)` has no observable effect in this model. -/
def scrapeLoop (site : Site) : Nat → Nat → List Record → List String → RunResult
  | 0, _, acc, urls => ⟨acc, urls, none⟩
  | fuel + 1, page, acc, urls =>
    let url := pageUrl baseUrl page
    match site url with
    | .error e => ⟨acc, urls ++ [url], some (.fetchFailure e)⟩
    | .ok doc =>
      if doc.quotes.isEmpty then
        ⟨acc, urls ++ [url], some .noItemsOnPage⟩
      else
        let acc' := acc ++ extractPage page doc
        match doc.nextBtn with
        | none => ⟨acc', urls ++ [url], some .noNextPage⟩
        | some _ => scrapeLoop site fuel (page + 1) acc' (urls ++ [url])

/-- `scrape_quotes_to_scrape` (lines 13–83): run the pagination loop
starting at `page = 1` with empty accumulators. -/
def scrape_quotes_to_scrape (site : Site) (fuel : Nat) : RunResult :=
  scrapeLoop site fuel 1 [] []

/-- The records of pages `p, p+1, …, p+m-1` in order, each page
contributing its extracted records. -/
def recordsRange (pages : Nat → QuotesPage) : Nat → Nat → List Record
  | _, 0 => []
  | p, m + 1 => extractPage p (pages p) ++ recordsRange pages (p + 1) m

/-- The URLs of pages `p, p+1, …, p+m-1`. -/
def urlsRange : Nat → Nat → List String
  | _, 0 => []
  | p, m + 1 => pageUrl baseUrl p :: urlsRange (p + 1) m

/-- The two normal stop conditions of the loop at a page: the item
selector matched nothing, or the next-page selector matched nothing. -/
def stopsAt (pages : Nat → QuotesPage) (n : Nat) : Prop :=
  (pages n).quotes = [] ∨ (pages n).nextBtn = none

instance (pages : Nat → QuotesPage) (n : Nat) : Decidable (stopsAt pages n) := by
  unfold stopsAt; infer_instance

/-- Ghost mirror of the loop's control flow: the page numbers for which
`requests.get` is called, starting at `p`. A page is attempted, and the
next one follows exactly when the fetch succeeded, the page had items and
a next control. -/
def attemptedFrom (site : Site) : Nat → Nat → List Nat
  | 0, _ => []
  | fuel + 1, p =>
    match site (pageUrl baseUrl p) with
    | .error _ => [p]
    | .ok doc =>
      if doc.quotes.isEmpty then [p]
      else
        match doc.nextBtn with
        | none => [p]
        | some _ => p :: attemptedFrom site fuel (p + 1)

/-- The page numbers attempted by a full run (which starts at page 1). -/
def attempted (site : Site) (fuel : Nat) : List Nat :=
  attemptedFrom site fuel 1

/-- The number of item-selector matches on page `n` (0 when the fetch of
that page fails). -/
def itemCount (site : Site) (n : Nat) : Nat :=
  match site (pageUrl baseUrl n) with
  | .ok doc => doc.quotes.length
  | .error _ => 0

/-- A mock paginator: pages 1 and 2 each carry one quote and a next-page
control, page 3 (and beyond) has no item matches. -/
def mockPages (n : Nat) : QuotesPage :=
  if n = 1 then ⟨[⟨["Quote one."], ["Alice"], ["wit"]⟩], some ⟨some "/page/2/"⟩⟩
  else if n = 2 then ⟨[⟨["Quote two."], ["Bob"], []⟩], some ⟨some "/page/3/"⟩⟩
  else ⟨[], none⟩

/-- The mock paginator exposed as a site keyed by URL. -/
def mockSite : Site := fun url =>
  if url = pageUrl baseUrl 1 then .ok (mockPages 1)
  else if url = pageUrl baseUrl 2 then .ok (mockPages 2)
  else if url = pageUrl baseUrl 3 then .ok (mockPages 3)
  else .error .other

/-- A site on which page 1 succeeds (one quote, next control present) and
every further fetch raises the exception category `e`. -/
def failSite (e : FetchError) : Site := fun url =>
  if url = pageUrl baseUrl 1 then .ok (mockPages 1)
  else .error e

/-- The except-clause ladder of `scrape_with_error_handling`
(`advanced_examples.py` lines 175–188): `Timeout`, `ConnectionError`,
`HTTPError`, then any remaining `RequestException` are reported through
distinct handlers, in that order. -/
inductive HandlerBranch where
  | timeoutBranch : HandlerBranch
  | connectionErrorBranch : HandlerBranch
  | httpErrorBranch : HandlerBranch
  | requestErrorBranch : HandlerBranch
  deriving DecidableEq, Repr

/-- Which except clause of `scrape_with_error_handling` catches a given
fetch exception category. -/
def classifyError : FetchError → HandlerBranch
  | .timeout => .timeoutBranch
  | .connectionError => .connectionErrorBranch
  | .httpStatusError _ => .httpErrorBranch
  | .other => .requestErrorBranch

/-- Pages considered equal when only the next-page link's `href` may
differ: same item matches, and the next-page selector either matches on
both or on neither. -/
def samePageModHref (a b : QuotesPage) : Prop :=
  a.quotes = b.quotes ∧ a.nextBtn.isSome = b.nextBtn.isSome

/-- Two sites that agree everywhere except possibly in the `href`
attributes of their next-page links. -/
def sameSiteModHref (s s' : Site) : Prop :=
  ∀ url,
    match s url, s' url with
    | .ok a, .ok b => samePageModHref a b
    | .error e, .error e' => e = e'
    | _, _ => False

/-- A mock site whose page 1 has one quote and a next-page link with the
given `href`; every other page has no item matches. -/
def mockSiteWithHref (h : String) : Site := fun url =>
  if url = pageUrl baseUrl 1 then
    .ok ⟨[⟨["Quote one."], ["Alice"], ["wit"]⟩], some ⟨some h⟩⟩
  else .ok ⟨[], none⟩

/-- Boolean prefix test on character lists (used to keep the `urljoin`
model kernel-computable). -/
def listIsPref : List Char → List Char → Bool
  | [], _ => true
  | _ :: _, [] => false
  | a :: as, b :: bs => a = b && listIsPref as bs

/-- Characters of a network location: everything up to the first `/`. -/
def takeNetloc : List Char → List Char
  | [] => []
  | c :: cs => if c = '/' then [] else c :: takeNetloc cs

/-- Splits `scheme://rest` into the characters up to and including `://`
and the rest; `none` when no `://` occurs. -/
def splitSchemeAux (acc : List Char) : List Char → Option (List Char × List Char)
  | ':' :: '/' :: '/' :: rest => some (acc ++ [':', '/', '/'], rest)
  | c :: rest => splitSchemeAux (acc ++ [c]) rest
  | [] => none

/-- The scheme and network location of an absolute URL:
`"http://host/path"` gives `"http://host"`. -/
def schemeNetloc (base : String) : String :=
  match splitSchemeAux [] base.toList with
  | some (pre, rest) => String.mk (pre ++ takeNetloc rest)
  | none => base

/-- Model of `urllib.parse.urljoin(base, url)` (used at line 245 of
`practical_example.py`), restricted to the cases the claims exercise: an
absolute `url` is returned unchanged, and a root-relative `url` (starting
with `/`) replaces the base URL's whole path, resolving to the base's
scheme and network location followed by `url`. Other relative forms are
outside the model (`none`). -/
def urljoin (base url : String) : Option String :=
  if listIsPref "http://".toList url.toList || listIsPref "https://".toList url.toList then
    some url
  else if listIsPref "/".toList url.toList then
    some (schemeNetloc base ++ url)
  else none

/-- A site whose page-1 next link carries the relative href `/other/`;
page 2 and beyond have no item matches. -/
def siteC6 : Site := fun url =>
  if url = pageUrl baseUrl 1 then
    .ok ⟨[⟨["Quote one."], ["Alice"], ["wit"]⟩], some ⟨some "/other/"⟩⟩
  else .ok ⟨[], none⟩

/-- JSON values, as `json.dump` produces them for the quote dicts. -/
inductive Json where
  | str : String → Json
  | num : Nat → Json
  | arr : List Json → Json
  | obj : List (String × Json) → Json

/-- `json.dump(quotes, ...)` (line 149) serializes each record as an
object with its four keys in insertion order; `tags` is emitted as a JSON
array of strings. -/
def jsonOfRecord (r : Record) : Json :=
  .obj [("text", .str r.text), ("author", .str r.author),
        ("tags", .arr (r.tags.map Json.str)), ("page", .num r.page)]

/-- The CSV header row: `fieldnames=['text', 'author', 'tags', 'page']`
(line 156). -/
def csvFieldnames : List String := ["text", "author", "tags", "page"]

/-- One CSV row (lines 159–163): the record's cells in header order, with
the tags list flattened by `', '.join(quote['tags'])`. The `csv` module
round-trips each cell value through quoting, so reading the file back
yields these cells. -/
def csvRowOf (r : Record) : List String :=
  [r.text, r.author, String.intercalate ", " r.tags, toString r.page]

/-- Reading one field back from a serialized record object: the value
stored under `key`. -/
def jsonField (key : String) : Json → Option Json
  | .obj kvs => (kvs.find? (fun kv => kv.1 == key)).map Prod.snd
  | _ => none

/-- Outcome of `analyze_scraped_data`: the early return on an empty input,
or the computed analysis (author counts, tag counts, shortest and longest
quote as `(length, text, author)` triples). -/
inductive AnalyzeOutcome where
  | noQuotes : AnalyzeOutcome
  | report : List (String × Nat) → List (String × Nat) →
      (Nat × String × String) → (Nat × String × String) → AnalyzeOutcome
  deriving DecidableEq, Repr

/-- `counts[key] = counts.get(key, 0) + 1` on an insertion-ordered dict,
modelled as an association list. -/
def bumpCount (m : List (String × Nat)) (k : String) : List (String × Nat) :=
  if m.any (fun kv => kv.1 == k) then
    m.map (fun kv => if kv.1 == k then (kv.1, kv.2 + 1) else kv)
  else m ++ [(k, 1)]

/-- `analyze_scraped_data` (lines 86–133): early return on an empty input;
otherwise count quotes per author and occurrences per tag, build
`quote_lengths` (one `(len(text), text, author)` triple per quote), sort
it ascending by length (`sort(key=lambda x: x[0])`, stable), and read
`quote_lengths[0]` and `quote_lengths[-1]`. The two Python index accesses
are modelled fallibly: `none` models an uncaught `IndexError`. The
print-only top-5/top-10 slices have no observable effect beyond these
values. -/
def analyze_scraped_data (quotes : List Record) : Option AnalyzeOutcome :=
  if quotes = [] then some .noQuotes
  else
    let authorCounts := quotes.foldl (fun m q => bumpCount m q.author) []
    let allTags := quotes.foldl (fun acc q => acc ++ q.tags) []
    let tagCounts := allTags.foldl bumpCount []
    let quoteLengths := quotes.map (fun q => (q.text.length, q.text, q.author))
    let sorted := quoteLengths.mergeSort (fun a b => decide (a.1 ≤ b.1))
    match sorted.get? 0, sorted.get? (sorted.length - 1) with
    | some s, some l => some (.report authorCounts tagCounts s l)
    | _, _ => none

/-- The course-text filter of `scrape_flatiron_courses` (`scraper.py`
lines 75–79): keep each element's trimmed text when it is non-empty and
longer than 3 characters. -/
def courses_found (courseTexts : List String) : List String :=
  courseTexts.filter (fun t => decide (t ≠ "" ∧ 3 < t.length))

/-- The duplicate-removal loop of `scrape_flatiron_courses` (`scraper.py`
lines 81–85): walk the list, appending each course not already present. -/
def unique_courses (xs : List String) : List String :=
  xs.foldl (fun acc c => if c ∈ acc then acc else acc ++ [c]) []

/-- The loop is invariant in its accumulators: running with accumulators
`acc`/`urls` prepends them to the result of running with empty ones. -/
theorem scrapeLoop_acc (site : Site) :
    ∀ (fuel page : Nat) (acc : List Record) (urls : List String),
      scrapeLoop site fuel page acc urls =
        ⟨acc ++ (scrapeLoop site fuel page [] []).records,
         urls ++ (scrapeLoop site fuel page [] []).fetchedUrls,
         (scrapeLoop site fuel page [] []).terminal⟩ := by
  intro fuel
  induction fuel with
  | zero =>
    intro page acc urls
    simp [scrapeLoop]
  | succ fuel ih =>
    intro page acc urls
    simp only [scrapeLoop]
    cases h : site (pageUrl baseUrl page) with
    | error e => simp
    | ok doc =>
      by_cases hq : doc.quotes = []
      · simp [hq]
      · cases hb : doc.nextBtn with
        | none => simp [hq, hb]
        | some btn =>
          simp only [if_neg hq, hb, List.nil_append]
          rw [ih (page + 1) (acc ++ extractPage page doc) (urls ++ [pageUrl baseUrl page]),
            ih (page + 1) (extractPage page doc) [pageUrl baseUrl page]]
          simp [hq]

/-- Processing `d` consecutive pages on which the fetch succeeds and
neither stop condition holds advances the loop `d` steps, accumulating
those pages' records and URLs. -/
theorem scrapeLoop_chain (site : Site) (pages : Nat → QuotesPage) :
    ∀ (d p fuel : Nat) (acc : List Record) (urls : List String),
      (∀ n, p ≤ n → n < p + d → site (pageUrl baseUrl n) = .ok (pages n)) →
      (∀ n, p ≤ n → n < p + d → ¬ stopsAt pages n) →
      scrapeLoop site (d + fuel) p acc urls =
        scrapeLoop site fuel (p + d) (acc ++ recordsRange pages p d)
          (urls ++ urlsRange p d) := by
  intro d
  induction d with
  | zero =>
    intro p fuel acc urls _ _
    simp [recordsRange, urlsRange]
  | succ d ih =>
    intro p fuel acc urls hok hns
    have hokp : site (pageUrl baseUrl p) = .ok (pages p) := hok p le_rfl (by omega)
    have hnsp : ¬ stopsAt pages p := hns p le_rfl (by omega)
    rw [stopsAt, not_or] at hnsp
    obtain ⟨hq, hb⟩ := hnsp
    obtain ⟨btn, hbtn⟩ := Option.ne_none_iff_exists'.mp hb
    rw [show d + 1 + fuel = (d + fuel) + 1 from by omega]
    simp only [scrapeLoop, hokp, if_neg hq, hbtn]
    rw [ih (p + 1) fuel (acc ++ extractPage p (pages p)) (urls ++ [pageUrl baseUrl p])
      (fun n h1 h2 => hok n (by omega) (by omega))
      (fun n h1 h2 => hns n (by omega) (by omega))]
    simp [recordsRange, urlsRange, hq, show p + 1 + d = p + (d + 1) from by omega]

/-- Extending a page range by one at the top appends that page's records. -/
theorem recordsRange_snoc (pages : Nat → QuotesPage) :
    ∀ (m p : Nat),
      recordsRange pages p (m + 1) =
        recordsRange pages p m ++ extractPage (p + m) (pages (p + m)) := by
  intro m
  induction m with
  | zero =>
    intro p
    simp [recordsRange]
  | succ m ih =>
    intro p
    rw [recordsRange, ih (p + 1), recordsRange]
    simp [show p + 1 + m = p + (m + 1) from by omega]

/-- Claim C1: when every fetched page succeeds, the pagination loop stops
at the first page satisfying one of the two stop conditions — with
terminal reason `noItemsOnPage` when that page's item selector matched
nothing (returning only the records of the pages before it), and with
`noNextPage` when it still had items but the next-page selector matched
nothing (returning that page's records as well). -/
theorem run_stops_at_first_stop_page
    (site : Site) (pages : Nat → QuotesPage) (k fuel : Nat)
    (hsite : ∀ n, 1 ≤ n → n ≤ k → site (pageUrl baseUrl n) = .ok (pages n))
    (hk : 1 ≤ k) (hstop : stopsAt pages k)
    (hmin : ∀ n, 1 ≤ n → n < k → ¬ stopsAt pages n)
    (hfuel : k ≤ fuel) :
    (scrape_quotes_to_scrape site fuel).terminal =
      some (if (pages k).quotes = [] then .noItemsOnPage else .noNextPage) ∧
    (scrape_quotes_to_scrape site fuel).records =
      recordsRange pages 1 (if (pages k).quotes = [] then k - 1 else k) := by
  unfold scrape_quotes_to_scrape
  rw [show fuel = (k - 1) + (fuel - (k - 1)) from by omega]
  rw [scrapeLoop_chain site pages (k - 1) 1 (fuel - (k - 1)) [] []
    (fun n h1 h2 => hsite n h1 (by omega))
    (fun n h1 h2 => hmin n h1 (by omega))]
  rw [show 1 + (k - 1) = k from by omega]
  rw [show fuel - (k - 1) = (fuel - (k - 1) - 1) + 1 from by omega]
  have hsk : site (pageUrl baseUrl k) = .ok (pages k) := hsite k hk le_rfl
  simp only [scrapeLoop, hsk, List.nil_append]
  by_cases hq : (pages k).quotes = []
  · simp [hq]
  · have hb : (pages k).nextBtn = none := by
      rcases hstop with h | h
      · exact absurd h hq
      · exact h
    have hsnoc := recordsRange_snoc pages (k - 1) 1
    rw [show (k - 1) + 1 = k from by omega, show 1 + (k - 1) = k from by omega] at hsnoc
    simp [hq, hb, hsnoc]

/-- Extending a page range by one at the top appends that page's URL. -/
theorem urlsRange_snoc :
    ∀ (m p : Nat), urlsRange p (m + 1) = urlsRange p m ++ [pageUrl baseUrl (p + m)] := by
  intro m
  induction m with
  | zero =>
    intro p
    simp [urlsRange]
  | succ m ih =>
    intro p
    rw [urlsRange, ih (p + 1), urlsRange]
    simp [show p + 1 + m = p + (m + 1) from by omega]

/-- Witness for C1: on the mock paginator whose page 3 has an empty item
selector, the run stops with `noItemsOnPage` and returns exactly the two
records of pages 1 and 2. -/
theorem run_stops_at_first_stop_page_witness :
    (scrape_quotes_to_scrape mockSite 10).terminal =
      some TerminalReason.noItemsOnPage ∧
    (scrape_quotes_to_scrape mockSite 10).records =
      [⟨"Quote one.", "Alice", ["wit"], 1⟩, ⟨"Quote two.", "Bob", [], 2⟩] := by
  have h := run_stops_at_first_stop_page mockSite mockPages 3 10
    (by intro n h1 h2; interval_cases n <;> rfl)
    (by omega)
    (by decide)
    (by intro n h1 h2; interval_cases n <;> decide)
    (by omega)
  have e1 : (if (mockPages 3).quotes = [] then TerminalReason.noItemsOnPage
      else TerminalReason.noNextPage) = TerminalReason.noItemsOnPage := by decide
  have e2 : (if (mockPages 3).quotes = [] then 3 - 1 else 3) = 2 := by decide
  rw [e1, e2] at h
  have e3 : recordsRange mockPages 1 2 =
      [⟨"Quote one.", "Alice", ["wit"], 1⟩, ⟨"Quote two.", "Bob", [], 2⟩] := by decide
  exact ⟨h.1, h.2.trans e3⟩

/-- Claim C3: if fetching page `k` raises any `requests` exception
category after `k - 1` processed pages, the loop stops there and the run
returns the records accumulated from pages `1..k-1` (partial results)
together with the failure's category; the exception is caught at the
pipeline boundary, so every run yields a `RunResult` rather than an
uncaught fault. -/
theorem run_returns_partial_results_on_fetch_failure
    (site : Site) (pages : Nat → QuotesPage) (k fuel : Nat) (e : FetchError)
    (hsite : ∀ n, 1 ≤ n → n < k → site (pageUrl baseUrl n) = .ok (pages n))
    (hfail : site (pageUrl baseUrl k) = .error e)
    (hk : 1 ≤ k)
    (hmin : ∀ n, 1 ≤ n → n < k → ¬ stopsAt pages n)
    (hfuel : k ≤ fuel) :
    scrape_quotes_to_scrape site fuel =
      ⟨recordsRange pages 1 (k - 1), urlsRange 1 k, some (.fetchFailure e)⟩ := by
  unfold scrape_quotes_to_scrape
  rw [show fuel = (k - 1) + (fuel - (k - 1)) from by omega]
  rw [scrapeLoop_chain site pages (k - 1) 1 (fuel - (k - 1)) [] []
    (fun n h1 h2 => hsite n h1 (by omega))
    (fun n h1 h2 => hmin n h1 (by omega))]
  rw [show 1 + (k - 1) = k from by omega]
  rw [show fuel - (k - 1) = (fuel - (k - 1) - 1) + 1 from by omega]
  have husnoc := urlsRange_snoc (k - 1) 1
  rw [show (k - 1) + 1 = k from by omega, show 1 + (k - 1) = k from by omega] at husnoc
  simp [scrapeLoop, hfail, husnoc]

/-- Witness for C3: a site timing out on page 2 yields the page-1 record,
the two attempted URLs and the timeout failure. -/
theorem run_returns_partial_results_on_fetch_failure_witness :
    scrape_quotes_to_scrape (failSite .timeout) 10 =
      ⟨[⟨"Quote one.", "Alice", ["wit"], 1⟩],
       [pageUrl baseUrl 1, pageUrl baseUrl 2],
       some (.fetchFailure .timeout)⟩ := by
  have h := run_returns_partial_results_on_fetch_failure
    (failSite .timeout) mockPages 2 10 .timeout
    (by intro n h1 h2; interval_cases n <;> rfl)
    (by rfl)
    (by omega)
    (by intro n h1 h2; interval_cases n <;> decide)
    (by omega)
  exact h.trans (by decide)

/-- Claim C4: a timeout, a connection (DNS) failure and an HTTP 404 fall
into pairwise distinct handler branches of the error-handling ladder and
produce pairwise distinct terminal reasons of the pipeline (the four
categories `Timeout`, `ConnectionError`, `HTTPError` and other request
errors are all distinguishable), and in all three cases the run returns
the record of the prior successful page rather than discarding it. -/
theorem fault_kinds_distinct_and_results_kept :
    [classifyError .timeout, classifyError .connectionError,
      classifyError (.httpStatusError 404), classifyError .other].Pairwise (· ≠ ·) ∧
    List.Pairwise (· ≠ ·)
      [(scrape_quotes_to_scrape (failSite .timeout) 10).terminal,
        (scrape_quotes_to_scrape (failSite .connectionError) 10).terminal,
        (scrape_quotes_to_scrape (failSite (.httpStatusError 404)) 10).terminal] ∧
    (scrape_quotes_to_scrape (failSite .timeout) 10).terminal =
      some (.fetchFailure .timeout) ∧
    (scrape_quotes_to_scrape (failSite .connectionError) 10).terminal =
      some (.fetchFailure .connectionError) ∧
    (scrape_quotes_to_scrape (failSite (.httpStatusError 404)) 10).terminal =
      some (.fetchFailure (.httpStatusError 404)) ∧
    (scrape_quotes_to_scrape (failSite .timeout) 10).records =
      [⟨"Quote one.", "Alice", ["wit"], 1⟩] ∧
    (scrape_quotes_to_scrape (failSite .connectionError) 10).records =
      [⟨"Quote one.", "Alice", ["wit"], 1⟩] ∧
    (scrape_quotes_to_scrape (failSite (.httpStatusError 404)) 10).records =
      [⟨"Quote one.", "Alice", ["wit"], 1⟩] := by
  decide

/-- Counterexample to C5 as stated: an item whose author selector matches
nothing yields the author value `"Unknown"`, not the claimed placeholder
`"No author"` (`"No <fieldname>"`). -/
theorem author_placeholder_is_not_no_author :
    (extractQuote 1 ⟨["Quote one."], [], []⟩).author = "Unknown" ∧
    (extractQuote 1 ⟨["Quote one."], [], []⟩).author ≠ "No author" := by
  decide

/-- Claim C5 (amended): every produced record contains all declared field
keys (the `Record` structure is total by construction); when a field's
selector matches nothing within the item, the `single` text field gets
the placeholder `"No text"`, the `single` author field gets the
placeholder `"Unknown"` (not `"No author"`), and the `multi` tags field
gets the empty sequence. -/
theorem missing_fields_get_placeholders (p : Nat) (q : Quote)
    (ht : q.textMatches = []) (ha : q.authorMatches = []) (hg : q.tagMatches = []) :
    (extractQuote p q).text = "No text" ∧
    (extractQuote p q).author = "Unknown" ∧
    (extractQuote p q).tags = [] := by
  simp [extractQuote, ht, ha, hg]

/-- Witness for C5 (amended) at the item with no field matches at all. -/
theorem missing_fields_get_placeholders_witness :
    (extractQuote 1 ⟨[], [], []⟩).text = "No text" ∧
    (extractQuote 1 ⟨[], [], []⟩).author = "Unknown" ∧
    (extractQuote 1 ⟨[], [], []⟩).tags = [] :=
  missing_fields_get_placeholders 1 ⟨[], [], []⟩ rfl rfl rfl

/-- Counterexample to C6 as stated: on a site whose page-1 next link
carries the relative href `/other/`, the pipeline's second fetched URL is
the counter-built `.../page/2/`, not that href resolved against the
current page's URL (which would be `.../other/`): the pipeline never
reads the href. -/
theorem next_href_not_resolved_by_pipeline :
    (scrape_quotes_to_scrape siteC6 10).fetchedUrls.get? 1 =
      some "http://quotes.toscrape.com/page/2/" ∧
    urljoin (pageUrl baseUrl 1) "/other/" =
      some "http://quotes.toscrape.com/other/" ∧
    ("http://quotes.toscrape.com/page/2/" : String) ≠
      "http://quotes.toscrape.com/other/" := by
  refine ⟨rfl, rfl, by decide⟩

/-- Claim C6 (amended): the pipeline itself builds each next URL from the
seed and the page counter and never reads the next link's href; relative
link resolution against the base URL belongs to
`demonstrate_link_extraction`, whose `urljoin` resolves the root-relative
href `/page/2/` against base `http://example.test/` to
`http://example.test/page/2/` (and against the pipeline's own base to
exactly the URL the pipeline fetches for page 2). -/
theorem relative_href_resolution_in_link_extraction :
    (scrape_quotes_to_scrape siteC6 10).fetchedUrls =
      [pageUrl baseUrl 1, pageUrl baseUrl 2] ∧
    urljoin "http://example.test/" "/page/2/" = some "http://example.test/page/2/" ∧
    urljoin baseUrl "/page/2/" = some (pageUrl baseUrl 2) := by
  refine ⟨rfl, rfl, rfl⟩

/-- Claim C7: for every record whose `multi` tags field is `["a", "b"]`,
the CSV sink's row carries the comma-space-joined string `"a, b"` in the
column the header assigns to `tags`, the JSON sink serializes the tags as
exactly the array `["a", "b"]`, and the CSV header row is the field keys
plus `tags` and `page`. -/
theorem csv_json_tags_roundtrip (r : Record) (h : r.tags = ["a", "b"]) :
    (csvRowOf r).get? (csvFieldnames.indexOf "tags") = some "a, b" ∧
    jsonField "tags" (jsonOfRecord r) = some (.arr [.str "a", .str "b"]) ∧
    csvFieldnames = ["text", "author", "tags", "page"] := by
  have hidx : csvFieldnames.indexOf "tags" = 2 := by decide
  have hjoin : String.intercalate ", " ["a", "b"] = "a, b" := by decide
  refine ⟨?_, ?_, rfl⟩
  · rw [hidx]
    simp [csvRowOf, h, hjoin]
  · simp [jsonField, jsonOfRecord, List.find?, h]

/-- Witness for C7 at a concrete record with tags `["a", "b"]`. -/
theorem csv_json_tags_roundtrip_witness :
    (csvRowOf ⟨"T", "A", ["a", "b"], 7⟩).get? (csvFieldnames.indexOf "tags") =
      some "a, b" ∧
    jsonField "tags" (jsonOfRecord ⟨"T", "A", ["a", "b"], 7⟩) =
      some (.arr [.str "a", .str "b"]) ∧
    csvFieldnames = ["text", "author", "tags", "page"] :=
  csv_json_tags_roundtrip ⟨"T", "A", ["a", "b"], 7⟩ rfl

/-- Claim C9: `analyze_scraped_data` never indexes out of bounds: on every
input the modelled run is defined (`isSome`) — the empty input takes the
early return before `quote_lengths` is built, and otherwise
`quote_lengths` has one entry per quote, so the accesses at position `0`
and at position `len - 1` both succeed. -/
theorem analyze_scraped_data_never_out_of_bounds (quotes : List Record) :
    (analyze_scraped_data quotes).isSome := by
  unfold analyze_scraped_data
  by_cases h : quotes = []
  · simp [h]
  · simp only [if_neg h]
    set sorted := (quotes.map fun q => (q.text.length, q.text, q.author)).mergeSort
      (fun a b => decide (a.1 ≤ b.1)) with hs
    have hlen : sorted.length = quotes.length := by
      rw [hs, List.length_mergeSort, List.length_map]
    have hq : 0 < quotes.length := List.length_pos.mpr h
    obtain ⟨s, hs0⟩ : ∃ s, sorted[(0 : Nat)]? = some s := by
      cases h0 : sorted[(0 : Nat)]? with
      | none => exact absurd (List.getElem?_eq_none_iff.mp h0) (by omega)
      | some s => exact ⟨s, rfl⟩
    obtain ⟨l, hl0⟩ : ∃ l, sorted[sorted.length - 1]? = some l := by
      cases h1 : sorted[sorted.length - 1]? with
      | none => exact absurd (List.getElem?_eq_none_iff.mp h1) (by omega)
      | some l => exact ⟨l, rfl⟩
    simp [hs0, hl0]

/-- Every record extracted from page `p` carries page number `p`. -/
theorem extractPage_pages (p : Nat) (doc : QuotesPage) :
    ∀ r ∈ extractPage p doc, r.page = p := by
  intro r hr
  obtain ⟨q, hq, rfl⟩ := List.mem_map.mp hr
  rfl

/-- A list of records sharing one page number has non-decreasing pages. -/
theorem pairwise_le_of_pages_const (l : List Record) (p : Nat)
    (h : ∀ r ∈ l, r.page = p) : (l.map Record.page).Pairwise (· ≤ ·) := by
  induction l with
  | nil => simp
  | cons a l ih =>
    simp only [List.map_cons, List.pairwise_cons]
    refine ⟨?_, ih (fun r hr => h r (by simp [hr]))⟩
    intro b hb
    obtain ⟨r, hr, rfl⟩ := List.mem_map.mp hb
    rw [h a (by simp), h r (by simp [hr])]

/-- Statistics of a loop run started at page `p` with empty accumulators:
its record count is the sum of the attempted pages' item counts, its URL
trace is the attempted pages' URLs, its records' page numbers are at
least `p` and non-decreasing, and the attempted pages are consecutive
from `p`. -/
theorem scrapeLoop_stats (site : Site) :
    ∀ (fuel p : Nat),
      (scrapeLoop site fuel p [] []).records.length =
        ((attemptedFrom site fuel p).map (itemCount site)).sum ∧
      (scrapeLoop site fuel p [] []).fetchedUrls =
        (attemptedFrom site fuel p).map (pageUrl baseUrl) ∧
      (∀ r ∈ (scrapeLoop site fuel p [] []).records, p ≤ r.page) ∧
      ((scrapeLoop site fuel p [] []).records.map Record.page).Pairwise (· ≤ ·) ∧
      attemptedFrom site fuel p = List.range' p (attemptedFrom site fuel p).length := by
  intro fuel
  induction fuel with
  | zero =>
    intro p
    simp [scrapeLoop, attemptedFrom]
  | succ fuel ih =>
    intro p
    obtain ⟨ihlen, ihurls, ihlb, ihsorted, ihrange⟩ := ih (p + 1)
    simp only [scrapeLoop, attemptedFrom]
    cases hsite : site (pageUrl baseUrl p) with
    | error e =>
      simp [itemCount, hsite]
    | ok doc =>
      by_cases hq : doc.quotes = []
      · simp [hq, itemCount, hsite]
      · cases hb : doc.nextBtn with
        | none =>
          have hpages := extractPage_pages p doc
          simp only [List.isEmpty_eq_true, if_neg hq, hb]
          refine ⟨?_, ?_, ?_, ?_, ?_⟩
          · simp [itemCount, hsite, extractPage]
          · simp
          · intro r hr
            exact le_of_eq (hpages r hr).symm
          · exact pairwise_le_of_pages_const _ p hpages
          · simp [List.range'_one]
        | some btn =>
          have hacc := scrapeLoop_acc site fuel (p + 1) (extractPage p doc)
            [pageUrl baseUrl p]
          have hpages := extractPage_pages p doc
          simp only [List.isEmpty_eq_true, if_neg hq, hb, List.nil_append]
          rw [hacc]
          refine ⟨?_, ?_, ?_, ?_, ?_⟩
          · simp [itemCount, hsite, extractPage, ihlen]
          · simp [ihurls]
          · intro r hr
            rcases List.mem_append.mp (by simpa using hr) with hl | hradv
            · exact le_of_eq (hpages r hl).symm
            · exact le_trans (by omega) (ihlb r hradv)
          · rw [List.map_append, List.pairwise_append]
            refine ⟨pairwise_le_of_pages_const _ p hpages, ihsorted, ?_⟩
            intro a ha b hbm
            obtain ⟨r, hr, rfl⟩ := List.mem_map.mp ha
            obtain ⟨r', hr', rfl⟩ := List.mem_map.mp hbm
            rw [hpages r hr]
            exact le_trans (by omega) (ihlb r' hr')
          · rw [ihrange]
            simp [List.range'_succ]

/-- Claim C2: for every run, the number of returned records equals the
sum over attempted pages of that page's item-selector match count, the
records' page fields are non-decreasing and at least 1, and the fetched
URLs are exactly those of consecutive page numbers starting at 1. -/
theorem records_length_and_pages_monotone (site : Site) (fuel : Nat) :
    (scrape_quotes_to_scrape site fuel).records.length =
      ((attempted site fuel).map (itemCount site)).sum ∧
    ((scrape_quotes_to_scrape site fuel).records.map Record.page).Pairwise (· ≤ ·) ∧
    (∀ r ∈ (scrape_quotes_to_scrape site fuel).records, 1 ≤ r.page) ∧
    (scrape_quotes_to_scrape site fuel).fetchedUrls =
      (attempted site fuel).map (pageUrl baseUrl) ∧
    attempted site fuel = List.range' 1 (attempted site fuel).length := by
  obtain ⟨h1, h2, h3, h4, h5⟩ := scrapeLoop_stats site fuel 1
  exact ⟨h1, h4, h3, h2, h5⟩

/-- The loop never reads the next link's href: two sites agreeing up to
hrefs produce identical loop runs. -/
theorem scrapeLoop_congr_href (s s' : Site) (h : sameSiteModHref s s') :
    ∀ (fuel p : Nat) (acc : List Record) (urls : List String),
      scrapeLoop s fuel p acc urls = scrapeLoop s' fuel p acc urls := by
  intro fuel
  induction fuel with
  | zero =>
    intro p acc urls
    rfl
  | succ fuel ih =>
    intro p acc urls
    have hu := h (pageUrl baseUrl p)
    simp only [scrapeLoop]
    cases hs : s (pageUrl baseUrl p) with
    | error e =>
      cases hs' : s' (pageUrl baseUrl p) with
      | error e' =>
        rw [hs, hs'] at hu
        simp only at hu
        rw [hu]
      | ok b =>
        rw [hs, hs'] at hu
        exact absurd hu (by simp)
    | ok a =>
      cases hs' : s' (pageUrl baseUrl p) with
      | error e' =>
        rw [hs, hs'] at hu
        exact absurd hu (by simp)
      | ok b =>
        rw [hs, hs'] at hu
        simp only [samePageModHref] at hu
        obtain ⟨hqe, hne⟩ := hu
        simp only [extractPage, ← hqe]
        by_cases hq : a.quotes = []
        · simp [hq]
        · simp only [List.isEmpty_eq_true, if_neg hq]
          cases ha : a.nextBtn with
          | none =>
            cases hb : b.nextBtn with
            | none => rfl
            | some btn' =>
              rw [ha, hb] at hne
              simp at hne
          | some btn =>
            cases hb : b.nextBtn with
            | none =>
              rw [ha, hb] at hne
              simp at hne
            | some btn' =>
              simp only [ha, hb]
              exact ih (p + 1) (acc ++ a.quotes.map (extractQuote p)) (urls ++ [pageUrl baseUrl p])

/-- Claim C8: the URL fetched for the n-th attempted page is exactly
`baseUrl ++ "/page/" ++ n ++ "/"`, with the attempted page numbers
consecutive from 1, and the entire run result is invariant under changing
every next link's href: the next-page match is only an existence test, so
the fetched URL sequence is determined by the seed URL and the page
counter alone, independent of the link targets on the fetched pages. -/
theorem fetched_urls_independent_of_hrefs
    (site site' : Site) (fuel : Nat) (h : sameSiteModHref site site') :
    scrape_quotes_to_scrape site fuel = scrape_quotes_to_scrape site' fuel ∧
    (scrape_quotes_to_scrape site fuel).fetchedUrls =
      (attempted site fuel).map (fun n => baseUrl ++ "/page/" ++ toString n ++ "/") ∧
    attempted site fuel = List.range' 1 (attempted site fuel).length := by
  obtain ⟨_, hurls, _, _, hrange⟩ := scrapeLoop_stats site fuel 1
  exact ⟨scrapeLoop_congr_href site site' h fuel 1 [] [], hurls, hrange⟩

/-- Witness for C8: two sites differing only in the next link's href
produce identical runs, and the fetched URLs are the counter-built ones. -/
theorem fetched_urls_independent_of_hrefs_witness :
    scrape_quotes_to_scrape (mockSiteWithHref "/page/2/") 10 =
      scrape_quotes_to_scrape (mockSiteWithHref "/nowhere/") 10 ∧
    (scrape_quotes_to_scrape (mockSiteWithHref "/page/2/") 10).fetchedUrls =
      ["http://quotes.toscrape.com/page/1/", "http://quotes.toscrape.com/page/2/"] := by
  have hsame : sameSiteModHref (mockSiteWithHref "/page/2/") (mockSiteWithHref "/nowhere/") := by
    intro url
    by_cases hu : url = pageUrl baseUrl 1 <;>
      simp [mockSiteWithHref, hu, samePageModHref]
  have h := fetched_urls_independent_of_hrefs
    (mockSiteWithHref "/page/2/") (mockSiteWithHref "/nowhere/") 10 hsame
  refine ⟨h.1, ?_⟩
  rw [h.2.1]
  decide

/-- The dedup fold after one more input element: an already-seen course is
skipped, an unseen one is appended at the end. -/
theorem unique_courses_snoc (xs : List String) (x : String) :
    unique_courses (xs ++ [x]) =
      if x ∈ unique_courses xs then unique_courses xs
      else unique_courses xs ++ [x] := by
  simp [unique_courses, List.foldl_append]

/-- Claim C10: the duplicate-removal step of `scrape_flatiron_courses`
keeps each distinct course string exactly once (duplicate-free, same
members as its input) and in first-occurrence order: its elements appear
in strictly increasing order of their first-occurrence index in the
input. -/
theorem unique_courses_first_occurrence_order (xs : List String) :
    (unique_courses xs).Nodup ∧
    (∀ x, x ∈ unique_courses xs ↔ x ∈ xs) ∧
    (unique_courses xs).Pairwise (fun a b => xs.indexOf a < xs.indexOf b) := by
  induction xs using List.reverseRecOn with
  | nil => simp [unique_courses]
  | append_singleton xs x ih =>
    obtain ⟨hnd, hmem, hord⟩ := ih
    rw [unique_courses_snoc]
    by_cases hx : x ∈ unique_courses xs
    · rw [if_pos hx]
      have hxxs : x ∈ xs := (hmem x).mp hx
      refine ⟨hnd, ?_, ?_⟩
      · intro y
        rw [hmem y, List.mem_append, List.mem_singleton]
        constructor
        · exact fun hy => Or.inl hy
        · rintro (hy | rfl)
          · exact hy
          · exact hxxs
      · refine hord.imp_of_mem ?_
        intro a b ha hb hab
        rw [List.indexOf_append_of_mem ((hmem a).mp ha),
          List.indexOf_append_of_mem ((hmem b).mp hb)]
        exact hab
    · rw [if_neg hx]
      have hxxs : x ∉ xs := fun hc => hx ((hmem x).mpr hc)
      refine ⟨?_, ?_, ?_⟩
      · rw [List.nodup_append]
        refine ⟨hnd, List.nodup_singleton x, ?_⟩
        intro a ha hax
        rw [List.mem_singleton] at hax
        subst hax
        exact hx ha
      · intro y
        simp [hmem y]
      · rw [List.pairwise_append]
        refine ⟨hord.imp_of_mem ?_, List.pairwise_singleton _ _, ?_⟩
        · intro a b ha hb hab
          rw [List.indexOf_append_of_mem ((hmem a).mp ha),
            List.indexOf_append_of_mem ((hmem b).mp hb)]
          exact hab
        · intro a ha b hb
          rw [List.mem_singleton] at hb
          subst hb
          rw [List.indexOf_append_of_mem ((hmem a).mp ha),
            List.indexOf_append_of_not_mem hxxs]
          have hlt : xs.indexOf a < xs.length :=
            List.indexOf_lt_length.mpr ((hmem a).mp ha)
          have h0 : List.indexOf b [b] = 0 := List.indexOf_cons_self b []
          rw [h0]
          omega

end Scraping
